import Mathlib

/-!
Verification of the memory-management core of sarrus-os (src/src/mm/memory.c,
declarations in src/include/memory.h), as a shallow embedding in Lean 4.

Modelling conventions
(the target is a 32-bit i386 kernel, so size_t and uint32_t are both 32 bits):

* All machine integers are `Nat`; every operation where the C code can wrap is
  performed with an explicit `% 2^32` (`add32`, `sub32`, `mul32`, `align8`).
* Bit masks with low-bit patterns are written with the arithmetically equal
  `Nat` expressions: for every natural `x`,
  `x & 0xFFF = x % 4096`, `x & 0x3FF = x % 1024`, `x >> 22 = x / 2^22`,
  `x & 1 = x % 2`, and `x & PAGE_USER = x / 4 % 2 * 4`.  For 32-bit values
  (all C entries are uint32_t) `x & ~0xFFF = x / 4096 * 4096` (`frameBase`).
  `|` on entry construction is kept as `Nat.lor` (`|||`).
* The global mutable state of memory.c is one record `SysState`:
  - the PMM free-page stack `free_page_stack` is the prefix
    `free_page_stack[0..free_page_count)` of the C array with the top of the
    stack (index `free_page_count - 1`) at the HEAD of the list, so
    `free_page_count` is the list length;
  - physical memory holding page tables is the association list `tables`
    from the physical base address of a table to its 1024 entries (reading a
    physical frame that was never written as a page table is undefined
    behaviour in the C; the model returns an empty table there);
  - the heap block chain rooted at `heap_first` is the list `heap_blocks` in
    memory-address order (the doubly linked `next`/`prev` pointers of the C
    mirror exactly this adjacency order, so the list is the whole structure);
    the address of block `i` is `heap_start` plus the headers and payloads of
    the blocks before it (`blockAddr`);
  - payload bytes of the heap are the function `mem` from addresses to byte
    values; header fields live in `heap_blocks`, not in `mem`.
* `sizeof(heap_block_t)` is 28 on i386: seven 4-byte fields
  (uint32_t magic; size_t size; int is_free; two pointers; const char *file;
  int line).
* Functions that the C exposes only through a diagnostic message model the
  message as a returned `Bool` (`kfree` returns `true` exactly when it prints
  "DOUBLE FREE OR CORRUPTION DETECTED!").
-/

/-- PAGE_SIZE from memory.h. -/
def PAGE_SIZE : Nat := 4096

/-- HEAP_VIRTUAL_START from memory.h (0xD0000000). -/
def HEAP_VIRTUAL_START : Nat := 3489660928

/-- PAGE_PRESENT flag bit. -/
def PAGE_PRESENT : Nat := 1

/-- PAGE_WRITABLE flag bit. -/
def PAGE_WRITABLE : Nat := 2

/-- PAGE_USER flag bit. -/
def PAGE_USER : Nat := 4

/-- HEAP_MAGIC_ALLOC from memory.h (0xDEADBEEF). -/
def HEAP_MAGIC_ALLOC : Nat := 3735928559

/-- HEAP_MAGIC_FREE from memory.h (0xFEEDFACE). -/
def HEAP_MAGIC_FREE : Nat := 4276996814

/-- sizeof(heap_block_t) on the 32-bit target: seven 4-byte fields. -/
def HEADER_SIZE : Nat := 28

/-- 2^32, the modulus of uint32_t / size_t arithmetic on the target. -/
def U32 : Nat := 4294967296

/-- 32-bit wrapping addition (uint32_t / size_t `+`). -/
def add32 (a b : Nat) : Nat := (a + b) % U32

/-- 32-bit wrapping subtraction (uint32_t / size_t `-`) for a first operand
already reduced below 2^32 (all stored C values are). -/
def sub32 (a b : Nat) : Nat := (a % U32 + (U32 - b % U32)) % U32

/-- 32-bit wrapping multiplication (size_t `*`). -/
def mul32 (a b : Nat) : Nat := a * b % U32

/-- The kmalloc size rounding `size = (size + 7) & ~7` in 32-bit size_t
arithmetic: clear the three low bits of the wrapped `size + 7`. -/
def align8 (n : Nat) : Nat := (n + 7) % U32 / 8 * 8

/-- The uint32_t mask `entry & ~0xFFF` recovering the frame base address from
a page-directory or page-table entry (entries are below 2^32). -/
def frameBase (e : Nat) : Nat := e / 4096 * 4096

/-- memory_stats_t from memory.h. -/
structure MemStats where
  total_physical : Nat
  used_physical : Nat
  free_physical : Nat
  total_virtual : Nat
  used_virtual : Nat
  heap_size : Nat
  heap_used : Nat
  heap_free : Nat
  allocation_count : Nat
  free_count : Nat
deriving Repr, DecidableEq

/-- heap_block_t from memory.h.  The `next`/`prev` links are represented by
the position of the block inside `SysState.heap_blocks` (the C links always
mirror memory-adjacency order); `file` is the pointer value (NULL = 0). -/
structure HeapBlock where
  magic : Nat
  size : Nat
  is_free : Bool
  file : Nat
  line : Nat
deriving Repr, DecidableEq

/-- Default heap block used for out-of-range list reads (never reached under
the hypotheses of the theorems below). -/
def blk0 : HeapBlock := ⟨0, 0, false, 0, 0⟩

/-- The global mutable state of memory.c (the static variables at the top of
the file), plus the byte contents of heap payload memory. -/
structure SysState where
  page_directory : List Nat
  total_memory : Nat
  used_pages : Nat
  heap_blocks : List HeapBlock
  heap_start : Nat
  heap_end : Nat
  free_page_stack : List Nat
  max_free_pages : Nat
  tables : List (Nat × List Nat)
  mem_stats : MemStats
  mem : Nat → Nat

/- ------------------------------------------------------------------ -/
/- Physical Memory Manager (memory.c lines 29-73)                      -/
/- ------------------------------------------------------------------ -/

/-- pmm_init (memory.c lines 29-45).  `max_free_pages = (mem_size - 0x400000)
/ PAGE_SIZE` in uint32_t arithmetic; the loop pushes the frame addresses
`0x400000, 0x400000 + 4096, ...` strictly below `mem_size` onto the free
stack while the stack has room.  `iters` is the trip count of that loop. -/
def pmm_init (s : SysState) (mem_size : Nat) : SysState :=
  let maxp := sub32 mem_size 4194304 / PAGE_SIZE
  let iters := if mem_size ≤ 4194304 then 0 else (mem_size - 4194304 + 4095) / PAGE_SIZE
  let stack := ((List.range iters).map (fun k => 4194304 + k * PAGE_SIZE)).foldl
      (fun st addr => if st.length < maxp then addr :: st else st) []
  { s with total_memory := mem_size, max_free_pages := maxp, free_page_stack := stack }

/-- pmm_alloc_page (memory.c lines 47-58).  Returns 0 (the failure sentinel)
when the free stack is empty; otherwise pops the top frame and updates the
usage counters. -/
def pmm_alloc_page (s : SysState) : Nat × SysState :=
  match s.free_page_stack with
  | [] => (0, s)
  | p :: rest =>
      (p, { s with free_page_stack := rest,
                   used_pages := add32 s.used_pages 1,
                   mem_stats := { s.mem_stats with
                     used_physical := add32 s.mem_stats.used_physical PAGE_SIZE,
                     free_physical := sub32 s.mem_stats.free_physical PAGE_SIZE } })

/-- pmm_free_page (memory.c lines 60-69).  Silently drops the frame when the
stack is full; otherwise pushes it and updates the usage counters. -/
def pmm_free_page (s : SysState) (page : Nat) : SysState :=
  if s.max_free_pages ≤ s.free_page_stack.length then s
  else { s with free_page_stack := page :: s.free_page_stack,
                used_pages := sub32 s.used_pages 1,
                mem_stats := { s.mem_stats with
                  used_physical := sub32 s.mem_stats.used_physical PAGE_SIZE,
                  free_physical := add32 s.mem_stats.free_physical PAGE_SIZE } }

/-- pmm_get_free_pages (memory.c lines 71-73): the free-stack element count. -/
def pmm_get_free_pages (s : SysState) : Nat := s.free_page_stack.length

/- ------------------------------------------------------------------ -/
/- Virtual Memory Manager (memory.c lines 97-164)                      -/
/- ------------------------------------------------------------------ -/

/-- Read the page table stored at physical base address `key` (the C
dereferences `key + KERNEL_VIRTUAL_BASE`; a frame never written as a page
table is undefined behaviour there, modelled as an empty table). -/
def getTable : List (Nat × List Nat) → Nat → List Nat
  | [], _ => []
  | (k, t) :: rest, key => if key = k then t else getTable rest key

/-- Overwrite (or first install) the page table stored at physical base
address `key`. -/
def setTable : List (Nat × List Nat) → Nat → List Nat → List (Nat × List Nat)
  | [], key, t => [(key, t)]
  | (k, t0) :: rest, key, t =>
      if key = k then (key, t) :: rest else (k, t0) :: setTable rest key t

/-- The get-or-create-page-table step of vmm_map_page (memory.c lines
102-113).  If the directory entry is absent it allocates a frame from the
PMM; a 0 frame makes the whole vmm_map_page call return with no effect
(`none` here), otherwise the directory entry is set to
`frame | PAGE_PRESENT | PAGE_WRITABLE | (flags & PAGE_USER)` and the new
table is zero-filled.  `flags / 4 % 2 * 4` is `flags & PAGE_USER`. -/
def vmm_ensure_table (s : SysState) (pdi flags : Nat) : Option SysState :=
  if (s.page_directory.getD pdi 0) % 2 = 0 then
    let pr := pmm_alloc_page s
    if pr.1 = 0 then none
    else some { pr.2 with
      page_directory := pr.2.page_directory.set pdi
        (pr.1 ||| PAGE_PRESENT ||| PAGE_WRITABLE ||| (flags / 4 % 2 * 4)),
      tables := setTable pr.2.tables pr.1 (List.replicate 1024 0) }
  else some s

/-- vmm_map_page (memory.c lines 97-122).  `virt / 2^22` is `virt >> 22` and
`virt / 4096 % 1024` is `(virt >> 12) & 0x3FF`.  After making sure the page
table exists, the entry becomes `phys | flags`; the TLB flush has no
observable effect in this model. -/
def vmm_map_page (s : SysState) (virt phys flags : Nat) : SysState :=
  let pdi := virt / 4194304
  let pti := virt / 4096 % 1024
  match vmm_ensure_table s pdi flags with
  | none => s
  | some s1 =>
      let base := frameBase (s1.page_directory.getD pdi 0)
      let t := getTable s1.tables base
      { s1 with tables := setTable s1.tables base (t.set pti (phys ||| flags)) }

/-- vmm_unmap_page (memory.c lines 124-141).  When both levels are present,
the frame `entry & ~0xFFF` is returned to the PMM and the entry cleared. -/
def vmm_unmap_page (s : SysState) (virt : Nat) : SysState :=
  let pdi := virt / 4194304
  let pti := virt / 4096 % 1024
  let pde := s.page_directory.getD pdi 0
  if pde % 2 = 0 then s
  else
    let t := getTable s.tables (frameBase pde)
    if (t.getD pti 0) % 2 = 0 then s
    else
      let s1 := pmm_free_page s (frameBase (t.getD pti 0))
      { s1 with tables := setTable s1.tables (frameBase pde) (t.set pti 0) }

/-- vmm_get_physical (memory.c lines 143-160).  Returns 0 when either level
is absent, else the frame base of the entry plus the page offset of the
virtual address. -/
def vmm_get_physical (s : SysState) (virt : Nat) : Nat :=
  let pdi := virt / 4194304
  let pti := virt / 4096 % 1024
  let pde := s.page_directory.getD pdi 0
  if pde % 2 = 0 then 0
  else
    let e := (getTable s.tables (frameBase pde)).getD pti 0
    if e % 2 = 0 then 0 else frameBase e + virt % 4096

/- ------------------------------------------------------------------ -/
/- Heap allocator (memory.c lines 167-313)                             -/
/- ------------------------------------------------------------------ -/

/-- Sum of (header size + payload size) over a block list: the number of
arena bytes the blocks own.  It is also the offset progression of the block
chain, so it doubles as the address-offset measure used by `blockAddr`. -/
def arenaSum (bs : List HeapBlock) : Nat :=
  (bs.map (fun b => HEADER_SIZE + b.size)).sum

/-- Address of the header of block `i`: the heap start plus the bytes owned
by the blocks before it (the C never computes this sum, it follows the
`next` pointers, which always step by `HEADER_SIZE + size`). -/
def blockAddr (hs : Nat) (bs : List HeapBlock) (i : Nat) : Nat :=
  hs + arenaSum (bs.take i)

/-- Recover the index of the block whose header lives at address `target`,
walking the chain from address `cur`.  This models the C pointer arithmetic
`block = (heap_block_t *)((uint8_t *)ptr - sizeof(heap_block_t))`: the C
reads that address directly, which is well defined only when it is a real
block header; the model resolves it to the block index (and `kfree` below is
a no-op when no block starts at the address, where the C would read
arbitrary memory). -/
def findBlockIdx (target : Nat) : Nat → List HeapBlock → Option Nat
  | _, [] => none
  | cur, b :: rest =>
      if cur = target then some 0
      else (findBlockIdx target (cur + HEADER_SIZE + b.size) rest).map (· + 1)

/-- One iteration of the page-mapping loop of heap_init (memory.c lines
174-180): allocate a frame; on success map page `i` of the heap arena to it
and advance `heap_end` by one page; on failure (frame 0) do nothing more. -/
def heap_init_step (s : SysState) (i : Nat) : SysState :=
  let pr := pmm_alloc_page s
  if pr.1 ≠ 0 then
    let sm := vmm_map_page pr.2 (s.heap_start + i * PAGE_SIZE) pr.1
                (PAGE_PRESENT ||| PAGE_WRITABLE)
    { sm with heap_end := add32 sm.heap_end PAGE_SIZE }
  else pr.2

/-- heap_init (memory.c lines 167-196).  Maps 16 initial pages, advancing
`heap_end` only for pages whose backing frame allocation succeeded, then
unconditionally lays down a single free block of
`16 * PAGE_SIZE - sizeof(heap_block_t)` bytes and sets the heap statistics
for the full 64KB arena. -/
def heap_init (s0 : SysState) : SysState :=
  let s1 := { s0 with heap_start := HEAP_VIRTUAL_START, heap_end := HEAP_VIRTUAL_START }
  let s2 := (List.range 16).foldl heap_init_step s1
  { s2 with
    heap_blocks := [{ magic := HEAP_MAGIC_FREE, size := 16 * PAGE_SIZE - HEADER_SIZE,
                      is_free := true, file := 0, line := 0 }],
    mem_stats := { s2.mem_stats with
      heap_size := 16 * PAGE_SIZE,
      heap_free := 16 * PAGE_SIZE - HEADER_SIZE } }

/-- find_free_block (memory.c lines 198-214).  Walks the chain from the
head; a block whose magic is neither sentinel aborts the scan (corruption,
NULL in C, `none` here); otherwise the first free block with
`size <= current->size` is returned (as its index). -/
def find_free_block (bs : List HeapBlock) (size : Nat) : Option Nat :=
  match bs with
  | [] => none
  | b :: rest =>
      if b.magic ≠ HEAP_MAGIC_FREE ∧ b.magic ≠ HEAP_MAGIC_ALLOC then none
      else if b.is_free ∧ size ≤ b.size then some 0
      else (find_free_block rest size).map (· + 1)

/-- split_block (memory.c lines 216-235).  When the block at index `i` has
more than `size + sizeof(heap_block_t) + 32` bytes (size_t comparison), a
new free block carved at offset `sizeof + size` takes the remainder
`block->size - size - sizeof(heap_block_t)` and is linked right after the
block, whose size becomes `size`. -/
def split_block (bs : List HeapBlock) (i size : Nat) : List HeapBlock :=
  match bs.drop i with
  | [] => bs
  | b :: rest =>
      if add32 (add32 size HEADER_SIZE) 32 < b.size then
        bs.take i ++ { b with size := size } ::
          { magic := HEAP_MAGIC_FREE,
            size := sub32 (sub32 b.size size) HEADER_SIZE,
            is_free := true, file := 0, line := 0 } :: rest
      else bs

/-- The forward half of merge_free_blocks (memory.c lines 239-246): absorb
every immediately following free block, adding `next->size +
sizeof(heap_block_t)` to the size each time. -/
def mergeForward : HeapBlock → List HeapBlock → HeapBlock × List HeapBlock
  | b, [] => (b, [])
  | b, n :: rest =>
      if n.is_free then
        mergeForward { b with size := add32 b.size (add32 n.size HEADER_SIZE) } rest
      else (b, n :: rest)

/-- merge_free_blocks (memory.c lines 237-257): merge the block at index `i`
with all following free blocks, then, if the block before it is free, absorb
the merged block into it. -/
def merge_free_blocks (bs : List HeapBlock) (i : Nat) : List HeapBlock :=
  match bs.drop i with
  | [] => bs
  | b :: after =>
      let m := mergeForward b after
      match (bs.take i).getLast? with
      | some p =>
          if p.is_free then
            (bs.take i).dropLast ++
              { p with size := add32 p.size (add32 m.1.size HEADER_SIZE) } :: m.2
          else bs.take i ++ m.1 :: m.2
      | none => m.1 :: m.2

/-- kmalloc (memory.c lines 259-284).  Zero size fails immediately; the size
is aligned by `align8`; on a found block the magic and free flag are set,
the block possibly split, the statistics updated, and the returned pointer
is the address just past the header. -/
def kmalloc (s : SysState) (size : Nat) : Option Nat × SysState :=
  if size = 0 then (none, s)
  else
    let sz := align8 size
    match find_free_block s.heap_blocks sz with
    | none => (none, s)
    | some i =>
        let b := s.heap_blocks.getD i blk0
        let bs1 := s.heap_blocks.set i
          { b with magic := HEAP_MAGIC_ALLOC, is_free := false, file := 0, line := 0 }
        (some (blockAddr s.heap_start s.heap_blocks i + HEADER_SIZE),
         { s with heap_blocks := split_block bs1 i sz,
                  mem_stats := { s.mem_stats with
                    allocation_count := add32 s.mem_stats.allocation_count 1,
                    heap_used := add32 s.mem_stats.heap_used sz,
                    heap_free := sub32 s.mem_stats.heap_free sz } })

/-- kfree (memory.c lines 286-304).  NULL is a silent no-op; the header is
located just below the pointer; a magic different from HEAP_MAGIC_ALLOC
prints the double-free-or-corruption diagnostic (the returned Bool) and
aborts with no state change; otherwise the block is marked free, the
statistics updated with the block size, and adjacent free blocks merged. -/
def kfree (s : SysState) (ptr : Nat) : SysState × Bool :=
  if ptr = 0 then (s, false)
  else
    match findBlockIdx (ptr - HEADER_SIZE) s.heap_start s.heap_blocks with
    | none => (s, false)
    | some i =>
        let b := s.heap_blocks.getD i blk0
        if b.magic ≠ HEAP_MAGIC_ALLOC then (s, true)
        else
          let bs1 := s.heap_blocks.set i { b with magic := HEAP_MAGIC_FREE, is_free := true }
          ({ s with heap_blocks := merge_free_blocks bs1 i,
                    mem_stats := { s.mem_stats with
                      free_count := add32 s.mem_stats.free_count 1,
                      heap_used := sub32 s.mem_stats.heap_used b.size,
                      heap_free := add32 s.mem_stats.heap_free b.size } }, false)

/-- Point update of the byte memory. -/
def updateByte (m : Nat → Nat) (a v : Nat) : Nat → Nat :=
  fun x => if x = a then v else m x

/-- Byte-level effect of memset (memory.c lines 341-358): `n` bytes from
`p` each become `(uint8_t)v`.  The aligned 4-byte fast path of the C writes
`val | val<<8 | val<<16 | val<<24`, i.e. the same byte in all four
positions, so the byte-level effect is that of the plain byte loop. -/
def memsetBytes : (Nat → Nat) → Nat → Nat → Nat → (Nat → Nat)
  | m, _, _, 0 => m
  | m, p, v, n + 1 => memsetBytes (updateByte m p (v % 256)) (p + 1) v n

/-- kcalloc (memory.c lines 306-313).  `count * size` is a size_t product
(wraps at 2^32); on kmalloc success the region is zero-filled. -/
def kcalloc (s : SysState) (count size : Nat) : Option Nat × SysState :=
  let total := mul32 count size
  let r := kmalloc s total
  match r.1 with
  | none => r
  | some p => (some p, { r.2 with mem := memsetBytes r.2.mem p 0 total })

/- ------------------------------------------------------------------ -/
/- Arithmetic helper lemmas                                            -/
/- ------------------------------------------------------------------ -/

theorem add32_small {a b : Nat} (h : a + b < U32) : add32 a b = a + b := by
  simp only [add32]
  exact Nat.mod_eq_of_lt h

theorem sub32_small {a b : Nat} (hb : b ≤ a) (ha : a < U32) : sub32 a b = a - b := by
  simp only [sub32, U32] at *
  omega

theorem add32_sub32_cancel {a b : Nat} (ha : a < U32) (hb : b < U32) :
    add32 (sub32 a b) b = a := by
  simp only [add32, sub32, U32] at *
  omega

/- ------------------------------------------------------------------ -/
/- Generic list helper lemmas                                          -/
/- ------------------------------------------------------------------ -/

theorem getD_set_self {α : Type} : ∀ (l : List α) (i : Nat) (v d : α),
    i < l.length → (l.set i v).getD i d = v
  | _ :: _, 0, _, _, _ => rfl
  | _ :: xs, i + 1, v, d, h =>
      getD_set_self xs i v d (Nat.lt_of_succ_lt_succ h)

theorem take_set_self {α : Type} : ∀ (l : List α) (i : Nat) (v : α),
    (l.set i v).take i = l.take i
  | [], _, _ => rfl
  | _ :: _, 0, _ => rfl
  | x :: xs, i + 1, v => by
      simp only [List.set, List.take]
      exact congrArg (x :: ·) (take_set_self xs i v)

theorem drop_succ_set {α : Type} : ∀ (l : List α) (i : Nat) (v : α),
    (l.set i v).drop (i + 1) = l.drop (i + 1)
  | [], _, _ => rfl
  | _ :: _, 0, _ => rfl
  | _ :: xs, i + 1, v => drop_succ_set xs i v

theorem set_decomp {α : Type} : ∀ (l : List α) (i : Nat) (v : α),
    i < l.length → l.set i v = l.take i ++ v :: l.drop (i + 1)
  | _ :: _, 0, _, _ => rfl
  | x :: xs, i + 1, v, h => by
      simp only [List.set, List.take, List.drop]
      exact congrArg (x :: ·) (set_decomp xs i v (Nat.lt_of_succ_lt_succ h))

theorem self_decomp {α : Type} : ∀ (l : List α) (i : Nat) (d : α),
    i < l.length → l = l.take i ++ l.getD i d :: l.drop (i + 1)
  | _ :: _, 0, _, _ => rfl
  | x :: xs, i + 1, d, h => by
      simp only [List.getD, List.take, List.drop]
      exact congrArg (x :: ·) (self_decomp xs i d (Nat.lt_of_succ_lt_succ h))

theorem getD_append_len {α : Type} : ∀ (xs : List α) (y : α) (ys : List α) (d : α),
    (xs ++ y :: ys).getD xs.length d = y
  | [], _, _, _ => rfl
  | _ :: xs, y, ys, d => getD_append_len xs y ys d

theorem take_append_len {α : Type} : ∀ (xs ys : List α), (xs ++ ys).take xs.length = xs
  | [], _ => rfl
  | x :: xs, ys => congrArg (x :: ·) (take_append_len xs ys)

theorem drop_append_len {α : Type} : ∀ (xs ys : List α), (xs ++ ys).drop xs.length = ys
  | [], _ => rfl
  | _ :: xs, ys => drop_append_len xs ys

theorem length_take_of_le {α : Type} {l : List α} {i : Nat} (h : i ≤ l.length) :
    (l.take i).length = i := by
  simp [List.length_take]
  omega

/- ------------------------------------------------------------------ -/
/- arenaSum lemmas                                                     -/
/- ------------------------------------------------------------------ -/

theorem arenaSum_nil : arenaSum [] = 0 := rfl

theorem arenaSum_cons (b : HeapBlock) (bs : List HeapBlock) :
    arenaSum (b :: bs) = HEADER_SIZE + b.size + arenaSum bs := by
  simp [arenaSum]

theorem arenaSum_append (xs ys : List HeapBlock) :
    arenaSum (xs ++ ys) = arenaSum xs + arenaSum ys := by
  simp [arenaSum]

theorem block_le_arenaSum : ∀ (bs : List HeapBlock) (i : Nat), i < bs.length →
    HEADER_SIZE + (bs.getD i blk0).size ≤ arenaSum bs
  | b :: bs, 0, _ => by
      simp only [List.getD_cons_zero, arenaSum_cons]
      omega
  | b :: bs, i + 1, h => by
      have := block_le_arenaSum bs i (Nat.lt_of_succ_lt_succ h)
      simp only [List.getD_cons_succ, arenaSum_cons]
      omega

theorem split_block_arenaSum (bs : List HeapBlock) (i a : Nat)
    (hbound : arenaSum bs < U32) (ha : a + HEADER_SIZE + 32 < U32) :
    arenaSum (split_block bs i a) = arenaSum bs := by
  rcases hd : bs.drop i with _ | ⟨b, rest⟩
  · simp only [split_block, hd]
  · have hdecomp : bs = bs.take i ++ b :: rest := by
      conv_lhs => rw [← List.take_append_drop i bs]
      rw [hd]
    have hsum : arenaSum bs
        = arenaSum (bs.take i) + (HEADER_SIZE + b.size + arenaSum rest) := by
      conv_lhs => rw [hdecomp]
      rw [arenaSum_append, arenaSum_cons]
    simp only [split_block, hd]
    by_cases hg : add32 (add32 a HEADER_SIZE) 32 < b.size
    · have h1 : add32 a HEADER_SIZE = a + HEADER_SIZE :=
        add32_small (by simp only [HEADER_SIZE] at *; omega)
      have h2 : add32 (a + HEADER_SIZE) 32 = a + HEADER_SIZE + 32 :=
        add32_small (by omega)
      rw [h1, h2] at hg
      have hbsz : b.size < U32 := by omega
      have hs1 : sub32 b.size a = b.size - a := sub32_small (by omega) hbsz
      have hs2 : sub32 (b.size - a) HEADER_SIZE = b.size - a - HEADER_SIZE :=
        sub32_small (by omega) (by omega)
      simp only [if_pos hg, h1, h2, hs1, hs2, arenaSum_append, arenaSum_cons]
      omega
    · simp only [if_neg hg]

theorem mergeForward_arenaSum : ∀ (after : List HeapBlock) (b : HeapBlock),
    HEADER_SIZE + b.size + arenaSum after < U32 →
    HEADER_SIZE + (mergeForward b after).1.size + arenaSum (mergeForward b after).2
      = HEADER_SIZE + b.size + arenaSum after
  | [], b, _ => rfl
  | n :: rest, b, h => by
      rw [arenaSum_cons] at h
      by_cases hf : n.is_free = true
      · have h1 : add32 n.size HEADER_SIZE = n.size + HEADER_SIZE :=
          add32_small (by omega)
        have h2 : add32 b.size (n.size + HEADER_SIZE) = b.size + (n.size + HEADER_SIZE) :=
          add32_small (by omega)
        have IH := mergeForward_arenaSum rest
          { b with size := add32 b.size (add32 n.size HEADER_SIZE) }
          (by simp only [h1, h2]; omega)
        simp only [mergeForward, hf, if_true] at *
        rw [IH]
        simp only [h1, h2]
        rw [arenaSum_cons]
        omega
      · simp [mergeForward, hf, arenaSum_cons]

theorem merge_free_blocks_arenaSum (bs : List HeapBlock) (i : Nat)
    (hbound : arenaSum bs < U32) :
    arenaSum (merge_free_blocks bs i) = arenaSum bs := by
  rcases hd : bs.drop i with _ | ⟨b, after⟩
  · simp only [merge_free_blocks, hd]
  · have hdecomp : bs = bs.take i ++ b :: after := by
      conv_lhs => rw [← List.take_append_drop i bs]
      rw [hd]
    have hsum : arenaSum bs
        = arenaSum (bs.take i) + (HEADER_SIZE + b.size + arenaSum after) := by
      conv_lhs => rw [hdecomp]
      rw [arenaSum_append, arenaSum_cons]
    have hmf := mergeForward_arenaSum after b (by omega)
    rcases hl : (bs.take i).getLast? with _ | p
    · have htn : bs.take i = [] := by
        cases hbs : bs.take i with
        | nil => rfl
        | cons x xs => rw [hbs] at hl; simp [List.getLast?] at hl
      simp only [merge_free_blocks, hd, hl]
      rw [arenaSum_cons]
      rw [htn, arenaSum_nil] at hsum
      omega
    · have hne : bs.take i ≠ [] := by
        intro h0
        rw [h0] at hl
        simp at hl
      have hgl : (bs.take i).getLast hne = p := by
        rw [List.getLast?_eq_getLast _ hne] at hl
        exact Option.some.inj hl
      have hcat : (bs.take i).dropLast ++ [p] = bs.take i := by
        have h2 := List.dropLast_append_getLast hne
        rwa [hgl] at h2
      have htake : arenaSum (bs.take i)
          = arenaSum ((bs.take i).dropLast) + (HEADER_SIZE + p.size) := by
        conv_lhs => rw [← hcat]
        rw [arenaSum_append, arenaSum_cons, arenaSum_nil]
        omega
      by_cases hp : p.is_free = true
      · have h1 : add32 (mergeForward b after).1.size HEADER_SIZE
            = (mergeForward b after).1.size + HEADER_SIZE :=
          add32_small (by omega)
        have h2 : add32 p.size ((mergeForward b after).1.size + HEADER_SIZE)
            = p.size + ((mergeForward b after).1.size + HEADER_SIZE) :=
          add32_small (by omega)
        simp only [merge_free_blocks, hd, hl, List.getLast?_eq_getLast _ hne, hgl, hp,
          if_true, arenaSum_append, arenaSum_cons, h1, h2]
        omega
      · simp only [merge_free_blocks, hd, List.getLast?_eq_getLast _ hne, hgl, hp,
          if_false, arenaSum_append, arenaSum_cons]
        simp [hp, arenaSum_append, arenaSum_cons]
        omega

/- ------------------------------------------------------------------ -/
/- Characterizations of the search functions                           -/
/- ------------------------------------------------------------------ -/

theorem find_free_block_spec : ∀ (bs : List HeapBlock) (sz i : Nat),
    find_free_block bs sz = some i →
    i < bs.length ∧ (bs.getD i blk0).is_free = true ∧ sz ≤ (bs.getD i blk0).size ∧
      ∀ j, j < i → ¬((bs.getD j blk0).is_free = true ∧ sz ≤ (bs.getD j blk0).size)
  | [], sz, i, h => by simp [find_free_block] at h
  | b :: rest, sz, i, h => by
      simp only [find_free_block] at h
      by_cases hm : b.magic ≠ HEAP_MAGIC_FREE ∧ b.magic ≠ HEAP_MAGIC_ALLOC
      · simp [hm] at h
      · rw [if_neg hm] at h
        by_cases hfit : b.is_free = true ∧ sz ≤ b.size
        · rw [if_pos hfit] at h
          have hi : i = 0 := by
            have := Option.some.inj h
            omega
          subst hi
          refine ⟨Nat.succ_pos _, hfit.1, hfit.2, ?_⟩
          intro j hj
          omega
        · rw [if_neg hfit] at h
          rcases Option.map_eq_some'.mp h with ⟨i0, hfind, hi⟩
          subst hi
          obtain ⟨h1, h2, h3, h4⟩ := find_free_block_spec rest sz i0 hfind
          refine ⟨Nat.succ_lt_succ h1, by simpa using h2, by simpa using h3, ?_⟩
          intro j hj
          cases j with
          | zero => simpa using hfit
          | succ j0 =>
              simpa using h4 j0 (Nat.lt_of_succ_lt_succ hj)

theorem findBlockIdx_lt : ∀ (bs : List HeapBlock) (t c i : Nat),
    findBlockIdx t c bs = some i → i < bs.length
  | [], t, c, i, h => by simp [findBlockIdx] at h
  | b :: rest, t, c, i, h => by
      simp only [findBlockIdx] at h
      by_cases hc : c = t
      · rw [if_pos hc] at h
        have := Option.some.inj h
        simp only [List.length_cons]
        omega
      · rw [if_neg hc] at h
        rcases Option.map_eq_some'.mp h with ⟨i0, hfind, hi⟩
        subst hi
        exact Nat.succ_lt_succ (findBlockIdx_lt rest t _ i0 hfind)

theorem findBlockIdx_blockAddr : ∀ (bs : List HeapBlock) (hs i : Nat), i < bs.length →
    findBlockIdx (blockAddr hs bs i) hs bs = some i
  | b :: rest, hs, 0, _ => by
      simp [findBlockIdx, blockAddr, arenaSum]
  | b :: rest, hs, i + 1, h => by
      have hi : i < rest.length := Nat.lt_of_succ_lt_succ h
      have IH := findBlockIdx_blockAddr rest (hs + HEADER_SIZE + b.size) i hi
      simp only [blockAddr, List.take_succ_cons, arenaSum_cons] at *
      rw [findBlockIdx]
      have hne : ¬ hs = hs + (HEADER_SIZE + b.size + arenaSum (rest.take i)) := by
        simp only [HEADER_SIZE]
        omega
      rw [if_neg hne]
      have harg : hs + (HEADER_SIZE + b.size + arenaSum (rest.take i))
          = hs + HEADER_SIZE + b.size + arenaSum (rest.take i) := by omega
      rw [harg, IH]
      rfl

/- ------------------------------------------------------------------ -/
/- Equations for kmalloc and preservation of the arena sum             -/
/- ------------------------------------------------------------------ -/

theorem kmalloc_zero (s : SysState) : kmalloc s 0 = (none, s) := by
  simp [kmalloc]

theorem kmalloc_of_none (s : SysState) (n : Nat) (hn : ¬ n = 0)
    (hf : find_free_block s.heap_blocks (align8 n) = none) :
    kmalloc s n = (none, s) := by
  simp only [kmalloc, if_neg hn, hf]

theorem kmalloc_of_some (s : SysState) (n i : Nat) (hn : ¬ n = 0)
    (hf : find_free_block s.heap_blocks (align8 n) = some i) :
    kmalloc s n = (some (blockAddr s.heap_start s.heap_blocks i + HEADER_SIZE),
      { s with
        heap_blocks := split_block
          (s.heap_blocks.set i
            { s.heap_blocks.getD i blk0 with
              magic := HEAP_MAGIC_ALLOC, is_free := false, file := 0, line := 0 })
          i (align8 n),
        mem_stats := { s.mem_stats with
          allocation_count := add32 s.mem_stats.allocation_count 1,
          heap_used := add32 s.mem_stats.heap_used (align8 n),
          heap_free := sub32 s.mem_stats.heap_free (align8 n) } }) := by
  simp only [kmalloc, if_neg hn, hf]

theorem arena_lt_mod : (65536 : Nat) < U32 := by
  simp only [U32]
  omega

theorem arenaSum_set_same_size (bs : List HeapBlock) (i : Nat) (v : HeapBlock)
    (h : i < bs.length) (hsz : v.size = (bs.getD i blk0).size) :
    arenaSum (bs.set i v) = arenaSum bs := by
  rw [set_decomp bs i v h]
  conv_rhs => rw [self_decomp bs i blk0 h]
  rw [arenaSum_append, arenaSum_cons, arenaSum_append, arenaSum_cons, hsz]

theorem kmalloc_arena (s : SysState) (n : Nat) (hA : arenaSum s.heap_blocks = 65536) :
    arenaSum ((kmalloc s n).2.heap_blocks) = 65536 := by
  by_cases hn : n = 0
  · subst hn
    rw [kmalloc_zero]
    exact hA
  · cases hf : find_free_block s.heap_blocks (align8 n) with
    | none =>
        rw [kmalloc_of_none s n hn hf]
        exact hA
    | some i =>
        rw [kmalloc_of_some s n i hn hf]
        obtain ⟨hi, hfree, hle, _⟩ := find_free_block_spec _ _ _ hf
        have hset := arenaSum_set_same_size s.heap_blocks i
          { s.heap_blocks.getD i blk0 with
            magic := HEAP_MAGIC_ALLOC, is_free := false, file := 0, line := 0 } hi rfl
        have hbnd := block_le_arenaSum s.heap_blocks i hi
        have h60 : align8 n + HEADER_SIZE + 32 < U32 := by
          simp only [HEADER_SIZE, U32] at *
          omega
        rw [split_block_arenaSum _ _ _ (by rw [hset, hA]; exact arena_lt_mod) h60, hset]
        exact hA

theorem kfree_arena (s : SysState) (p : Nat) (hA : arenaSum s.heap_blocks = 65536) :
    arenaSum ((kfree s p).1.heap_blocks) = 65536 := by
  by_cases hp : p = 0
  · simp [kfree, hp, hA]
  · simp only [kfree, if_neg hp]
    cases hfi : findBlockIdx (p - HEADER_SIZE) s.heap_start s.heap_blocks with
    | none => simpa using hA
    | some i =>
        by_cases hm : (s.heap_blocks.getD i blk0).magic ≠ HEAP_MAGIC_ALLOC
        · simp only [if_pos hm]
          exact hA
        · simp only [if_neg hm]
          have hi := findBlockIdx_lt _ _ _ _ hfi
          have hset := arenaSum_set_same_size s.heap_blocks i
            { s.heap_blocks.getD i blk0 with
              magic := HEAP_MAGIC_FREE, is_free := true } hi rfl
          rw [merge_free_blocks_arenaSum _ _ (by rw [hset, hA]; exact arena_lt_mod), hset]
          exact hA

/- ------------------------------------------------------------------ -/
/- heap_init equations                                                 -/
/- ------------------------------------------------------------------ -/

theorem heap_init_blocks (s : SysState) :
    (heap_init s).heap_blocks
      = [{ magic := HEAP_MAGIC_FREE, size := 16 * PAGE_SIZE - HEADER_SIZE,
           is_free := true, file := 0, line := 0 }]
    ∧ (heap_init s).mem_stats.heap_size = 16 * PAGE_SIZE
    ∧ (heap_init s).mem_stats.heap_free = 16 * PAGE_SIZE - HEADER_SIZE :=
  ⟨rfl, rfl, rfl⟩

theorem heap_init_step_empty (s : SysState) (i : Nat) (h : s.free_page_stack = []) :
    heap_init_step s i = s := by
  have hstep : pmm_alloc_page s = (0, s) := by
    simp [pmm_alloc_page, h]
  simp [heap_init_step, hstep]

theorem heap_init_fold_empty : ∀ (l : List Nat) (s : SysState),
    s.free_page_stack = [] → l.foldl heap_init_step s = s
  | [], _, _ => rfl
  | a :: l, s, h => by
      rw [List.foldl_cons, heap_init_step_empty s a h]
      exact heap_init_fold_empty l s h

/- ------------------------------------------------------------------ -/
/- Structure of the block list after split_block                       -/
/- ------------------------------------------------------------------ -/

theorem drop_eq_getD_cons : ∀ (bs : List HeapBlock) (i : Nat), i < bs.length →
    bs.drop i = bs.getD i blk0 :: bs.drop (i + 1)
  | _ :: _, 0, _ => rfl
  | _ :: bs, i + 1, h => drop_eq_getD_cons bs i (Nat.lt_of_succ_lt_succ h)

theorem take_append_of_len {α : Type} (xs ys : List α) (i : Nat) (h : xs.length = i) :
    (xs ++ ys).take i = xs := by
  subst h
  exact take_append_len xs ys

theorem getD_append_of_len {α : Type} (xs : List α) (y : α) (ys : List α) (d : α)
    (i : Nat) (h : xs.length = i) : (xs ++ y :: ys).getD i d = y := by
  subst h
  exact getD_append_len xs y ys d

theorem split_block_take (bs : List HeapBlock) (i a : Nat) :
    (split_block bs i a).take i = bs.take i := by
  rcases hd : bs.drop i with _ | ⟨b, rest⟩
  · simp only [split_block, hd]
  · have hi : i < bs.length := by
      by_contra hge
      rw [List.drop_eq_nil_of_le (Nat.le_of_not_lt hge)] at hd
      exact List.noConfusion hd
    have htl : (bs.take i).length = i := length_take_of_le (Nat.le_of_lt hi)
    simp only [split_block, hd]
    by_cases hg : add32 (add32 a HEADER_SIZE) 32 < b.size
    · rw [if_pos hg]
      exact take_append_of_len _ _ _ htl
    · rw [if_neg hg]

theorem split_block_le_length (bs : List HeapBlock) (i a : Nat) :
    bs.length ≤ (split_block bs i a).length := by
  rcases hd : bs.drop i with _ | ⟨b, rest⟩
  · simp only [split_block, hd]
    exact Nat.le_refl _
  · have hi : i < bs.length := by
      by_contra hge
      rw [List.drop_eq_nil_of_le (Nat.le_of_not_lt hge)] at hd
      exact List.noConfusion hd
    have htl : (bs.take i).length = i := length_take_of_le (Nat.le_of_lt hi)
    have hlen : bs.length = i + 1 + rest.length := by
      conv_lhs => rw [← List.take_append_drop i bs]
      rw [hd]
      simp only [List.length_append, List.length_cons, htl]
      omega
    simp only [split_block, hd]
    by_cases hg : add32 (add32 a HEADER_SIZE) 32 < b.size
    · rw [if_pos hg]
      simp only [List.length_append, List.length_cons, htl]
      omega
    · rw [if_neg hg]

theorem split_block_getD (bs : List HeapBlock) (i a : Nat) (hi : i < bs.length) :
    (split_block bs i a).getD i blk0
      = (if add32 (add32 a HEADER_SIZE) 32 < (bs.getD i blk0).size
         then { bs.getD i blk0 with size := a } else bs.getD i blk0) := by
  have hd : bs.drop i = bs.getD i blk0 :: bs.drop (i + 1) := drop_eq_getD_cons bs i hi
  have htl : (bs.take i).length = i := length_take_of_le (Nat.le_of_lt hi)
  simp only [split_block, hd]
  by_cases hg : add32 (add32 a HEADER_SIZE) 32 < (bs.getD i blk0).size
  · rw [if_pos hg, if_pos hg]
    exact getD_append_of_len _ _ _ _ _ htl
  · rw [if_neg hg, if_neg hg]

theorem align8_lt (n : Nat) : align8 n < U32 := by
  simp only [align8, U32]
  omega

theorem kmalloc_kfree_heap_free_core
    (s : SysState) (n i : Nat)
    (hn : ¬ n = 0)
    (hfind : find_free_block s.heap_blocks (align8 n) = some i)
    (hhf : s.mem_stats.heap_free < U32)
    (hcase : add32 (add32 (align8 n) HEADER_SIZE) 32 < (s.heap_blocks.getD i blk0).size
           ∨ (s.heap_blocks.getD i blk0).size = align8 n) :
    ((kfree (kmalloc s n).2 ((kmalloc s n).1.getD 0)).1).mem_stats.heap_free
      = s.mem_stats.heap_free := by
  obtain ⟨hi, hfree, hle, hfirst⟩ := find_free_block_spec _ _ _ hfind
  rw [kmalloc_of_some s n i hn hfind]
  simp only [Option.getD_some]
  set a := align8 n with ha
  set ballo : HeapBlock :=
    { s.heap_blocks.getD i blk0 with
      magic := HEAP_MAGIC_ALLOC, is_free := false, file := 0, line := 0 } with hballo
  set bs1 := s.heap_blocks.set i ballo with hbs1
  set bs2 := split_block bs1 i a with hbs2
  have hlen1 : bs1.length = s.heap_blocks.length := by
    rw [hbs1, List.length_set]
  have hi1 : i < bs1.length := by
    rw [hlen1]
    exact hi
  have hi2 : i < bs2.length := Nat.lt_of_lt_of_le hi1 (split_block_le_length bs1 i a)
  have htake : bs2.take i = s.heap_blocks.take i := by
    rw [hbs2, split_block_take, hbs1, take_set_self]
  have hgd1 : bs1.getD i blk0 = ballo := by
    rw [hbs1]
    exact getD_set_self _ _ _ _ hi
  have hgd2 : bs2.getD i blk0
      = (if add32 (add32 a HEADER_SIZE) 32 < ballo.size
         then { ballo with size := a } else ballo) := by
    rw [hbs2, split_block_getD bs1 i a hi1, hgd1]
  have hbsz : ballo.size = (s.heap_blocks.getD i blk0).size := rfl
  have hsz : (bs2.getD i blk0).size = a := by
    rw [hgd2]
    by_cases hg : add32 (add32 a HEADER_SIZE) 32 < ballo.size
    · rw [if_pos hg]
    · rw [if_neg hg]
      rcases hcase with hl | hr
      · exact absurd (by rw [hbsz]; exact hl) hg
      · rw [hbsz, hr]
  have hmg : ¬ (bs2.getD i blk0).magic ≠ HEAP_MAGIC_ALLOC := by
    rw [hgd2]
    by_cases hg : add32 (add32 a HEADER_SIZE) 32 < ballo.size
    · rw [if_pos hg]
      simp [hballo]
    · rw [if_neg hg]
      simp [hballo]
  have hp0 : ¬ (blockAddr s.heap_start s.heap_blocks i + HEADER_SIZE = 0) := by
    simp [HEADER_SIZE]
  have hsub : blockAddr s.heap_start s.heap_blocks i + HEADER_SIZE - HEADER_SIZE
      = blockAddr s.heap_start s.heap_blocks i := by
    omega
  have hfidx : findBlockIdx (blockAddr s.heap_start s.heap_blocks i) s.heap_start bs2
      = some i := by
    have hfb := findBlockIdx_blockAddr bs2 s.heap_start i hi2
    rw [blockAddr, htake] at hfb
    rw [blockAddr]
    exact hfb
  simp only [kfree, if_neg hp0, hsub, hfidx, if_neg hmg]
  rw [hsz]
  exact add32_sub32_cancel hhf (align8_lt n)

/- ------------------------------------------------------------------ -/
/- Bit-level lemmas for page-table entries                             -/
/- ------------------------------------------------------------------ -/

theorem testBit_decomp (q b i : Nat) (hb : b < 4096) :
    Nat.testBit (4096 * q + b) i
      = if i < 12 then Nat.testBit b i else Nat.testBit q (i - 12) := by
  have h4096 : (4096 : Nat) = 2 ^ 12 := by norm_num
  rw [h4096]
  exact Nat.testBit_mul_pow_two_add q (by rw [← h4096]; exact hb) i

theorem lor_small {b c : Nat} (hb : b < 4096) (hc : c < 4096) : b ||| c < 4096 := by
  have h4096 : (4096 : Nat) = 2 ^ 12 := by norm_num
  rw [h4096]
  apply Nat.lt_pow_two_of_testBit
  intro i hi
  rw [Nat.testBit_lor]
  have hb' : Nat.testBit b i = false :=
    Nat.testBit_lt_two_pow
      (Nat.lt_of_lt_of_le (h4096 ▸ hb) (Nat.pow_le_pow_right (by norm_num) hi))
  have hc' : Nat.testBit c i = false :=
    Nat.testBit_lt_two_pow
      (Nat.lt_of_lt_of_le (h4096 ▸ hc) (Nat.pow_le_pow_right (by norm_num) hi))
  rw [hb', hc']
  rfl

theorem aligned_lor (q b c : Nat) (hb : b < 4096) (hc : c < 4096) :
    (4096 * q + b) ||| c = 4096 * q + (b ||| c) := by
  apply Nat.eq_of_testBit_eq
  intro i
  rw [Nat.testBit_lor, testBit_decomp q b i hb,
    testBit_decomp q (b ||| c) i (lor_small hb hc)]
  by_cases hi : i < 12
  · rw [if_pos hi, if_pos hi, Nat.testBit_lor]
  · rw [if_neg hi, if_neg hi]
    have hc' : Nat.testBit c i = false :=
      Nat.testBit_lt_two_pow
        (Nat.lt_of_lt_of_le hc
          (by
            have : (4096 : Nat) = 2 ^ 12 := by norm_num
            rw [this]
            exact Nat.pow_le_pow_right (by norm_num) (Nat.le_of_not_lt hi)))
    rw [hc', Bool.or_false]

theorem lor_aligned_add (p f : Nat) (hp : p % 4096 = 0) (hf : f < 4096) :
    p ||| f = p + f := by
  obtain ⟨q, rfl⟩ : ∃ q, p = 4096 * q := ⟨p / 4096, by omega⟩
  have h := aligned_lor q 0 f (by norm_num) hf
  simpa using h

theorem dir_entry_build (p flags : Nat) (hp : p % 4096 = 0) :
    p ||| PAGE_PRESENT ||| PAGE_WRITABLE ||| (flags / 4 % 2 * 4)
      = p + (3 + flags / 4 % 2 * 4) := by
  obtain ⟨q, rfl⟩ : ∃ q, p = 4096 * q := ⟨p / 4096, by omega⟩
  have h1 : 4096 * q ||| PAGE_PRESENT = 4096 * q + 1 := by
    simpa [PAGE_PRESENT] using aligned_lor q 0 1 (by norm_num) (by norm_num)
  have h2 : 4096 * q + 1 ||| PAGE_WRITABLE = 4096 * q + 3 := by
    have := aligned_lor q 1 2 (by norm_num) (by norm_num)
    simpa [PAGE_WRITABLE] using this
  rw [h1, h2]
  have hu : flags / 4 % 2 * 4 = 0 ∨ flags / 4 % 2 * 4 = 4 := by omega
  rcases hu with hu | hu
  · rw [hu]
    simp
  · rw [hu]
    have := aligned_lor q 3 4 (by norm_num) (by norm_num)
    simpa using this

theorem frameBase_add (p d : Nat) (hp : p % 4096 = 0) (hd : d < 4096) :
    frameBase (p + d) = p := by
  simp only [frameBase]
  omega

/- ------------------------------------------------------------------ -/
/- Table store lemmas                                                  -/
/- ------------------------------------------------------------------ -/

theorem getTable_setTable_self : ∀ (ts : List (Nat × List Nat)) (k : Nat) (v : List Nat),
    getTable (setTable ts k v) k = v
  | [], k, v => by simp [setTable, getTable]
  | (k0, t0) :: rest, k, v => by
      by_cases hk : k = k0
      · simp [setTable, getTable, hk]
      · simp only [setTable, getTable, if_neg hk, if_neg (fun h => hk h)]
        exact getTable_setTable_self rest k v

/- ------------------------------------------------------------------ -/
/- memset byte lemma                                                   -/
/- ------------------------------------------------------------------ -/

theorem memsetBytes_at : ∀ (n : Nat) (m : Nat → Nat) (p v a : Nat),
    memsetBytes m p v n a = if p ≤ a ∧ a < p + n then v % 256 else m a := by
  intro n
  induction n with
  | zero =>
      intro m p v a
      show m a = _
      rw [if_neg (by omega : ¬ (p ≤ a ∧ a < p + 0))]
  | succ k IH =>
      intro m p v a
      show memsetBytes (updateByte m p (v % 256)) (p + 1) v k a = _
      rw [IH]
      simp only [updateByte]
      by_cases h1 : p + 1 ≤ a ∧ a < p + 1 + k
      · rw [if_pos h1, if_pos (by omega)]
      · rw [if_neg h1]
        by_cases h2 : a = p
        · rw [if_pos h2, if_pos (by omega)]
        · rw [if_neg h2, if_neg (by omega)]

/- ------------------------------------------------------------------ -/
/- pmm_init free-stack characterization                                -/
/- ------------------------------------------------------------------ -/

theorem foldl_push_all (maxp : Nat) : ∀ (l : List Nat) (st : List Nat),
    st.length + l.length ≤ maxp →
    l.foldl (fun st addr => if st.length < maxp then addr :: st else st) st
      = l.reverse ++ st
  | [], st, _ => by simp
  | a :: l, st, h => by
      rw [List.foldl_cons, if_pos (by simp at h; omega)]
      rw [foldl_push_all maxp l (a :: st) (by simp at h ⊢; omega)]
      simp

/- ------------------------------------------------------------------ -/
/- Concrete states used by witnesses and counterexamples               -/
/- ------------------------------------------------------------------ -/

/-- All-zero statistics record. -/
def stats0 : MemStats := ⟨0, 0, 0, 0, 0, 0, 0, 0, 0, 0⟩

/-- A minimal concrete state: no mappings, empty PMM pool, empty heap, and
payload memory filled with the byte 1. -/
def sys0 : SysState :=
  { page_directory := [], total_memory := 0, used_pages := 0,
    heap_blocks := [], heap_start := HEAP_VIRTUAL_START,
    heap_end := HEAP_VIRTUAL_START, free_page_stack := [], max_free_pages := 0,
    tables := [], mem_stats := stats0, mem := fun _ => 1 }

/-- Heap state as laid down by heap_init: one 65508-byte free block. -/
def heap64k : SysState :=
  { sys0 with
    heap_blocks := [⟨HEAP_MAGIC_FREE, 65508, true, 0, 0⟩],
    mem_stats := { stats0 with heap_size := 65536, heap_free := 65508 } }

/-- Small heap with a single 40-byte free block (too small to be split by an
allocation of a few bytes) and heap_free = 40. -/
def heap40 : SysState :=
  { sys0 with
    heap_blocks := [⟨HEAP_MAGIC_FREE, 40, true, 0, 0⟩],
    mem_stats := { stats0 with heap_free := 40 } }

/-- Heap whose only block has already been freed (magic HEAP_MAGIC_FREE):
calling kfree on it is a double free. -/
def heapDoubleFree : SysState :=
  { sys0 with heap_blocks := [⟨HEAP_MAGIC_FREE, 40, true, 0, 0⟩] }

/-- Heap whose only block is 8 bytes, used to refute the unbounded
rounding-up reading of the kmalloc contract. -/
def heap8 : SysState :=
  { sys0 with heap_blocks := [⟨HEAP_MAGIC_FREE, 8, true, 0, 0⟩] }

/- ------------------------------------------------------------------ -/
/- Claim C3                                                            -/
/- ------------------------------------------------------------------ -/

/-- C3: for every non-null pointer whose preceding header is a heap block
whose magic tag is not HEAP_MAGIC_ALLOC, kfree reports the
double-free-or-corruption condition (the returned flag is true, modelling
the DOUBLE FREE OR CORRUPTION DETECTED diagnostic) and returns the state
completely unchanged: no block fields, no list structure, no statistics. -/
theorem kfree_corruption_noop (s : SysState) (ptr i : Nat)
    (hp : ¬ ptr = 0)
    (hidx : findBlockIdx (ptr - HEADER_SIZE) s.heap_start s.heap_blocks = some i)
    (hmag : (s.heap_blocks.getD i blk0).magic ≠ HEAP_MAGIC_ALLOC) :
    kfree s ptr = (s, true) := by
  simp only [kfree, if_neg hp, hidx, if_pos hmag]

/-- Witness for C3: freeing the (already free) block of heapDoubleFree via
its payload address 0xD000001C reports corruption and changes nothing. -/
theorem kfree_corruption_noop_witness :
    kfree heapDoubleFree 3489660956 = (heapDoubleFree, true) :=
  kfree_corruption_noop heapDoubleFree 3489660956 0 (by decide) (by decide) (by decide)

/- ------------------------------------------------------------------ -/
/- Claim C7                                                            -/
/- ------------------------------------------------------------------ -/

/-- C7: when the page-directory entry of the virtual address is absent and
the PMM pool is empty (pmm_alloc_page returns the 0 sentinel), vmm_map_page
returns with the state completely unchanged: no mapping installed, page
directory and PMM free count untouched, and no failure signalled (the
function has no failure channel at all). -/
theorem vmm_map_oom_silent_noop (s : SysState) (virt phys flags : Nat)
    (habs : (s.page_directory.getD (virt / 4194304) 0) % 2 = 0)
    (hempty : s.free_page_stack = []) :
    vmm_map_page s virt phys flags = s := by
  have hstep : pmm_alloc_page s = (0, s) := by
    simp [pmm_alloc_page, hempty]
  rw [List.getD_eq_getElem?_getD] at habs
  simp [vmm_map_page, vmm_ensure_table, hstep, habs]

/-- Witness for C7: mapping 0xD0000000 in sys0 (empty directory, empty PMM
pool) is a complete no-op. -/
theorem vmm_map_oom_silent_noop_witness :
    vmm_map_page sys0 3489660928 4096 3 = sys0 :=
  vmm_map_oom_silent_noop sys0 3489660928 4096 3 (by decide) rfl

/- ------------------------------------------------------------------ -/
/- Claim C9 (code bug)                                                 -/
/- ------------------------------------------------------------------ -/

/-- C9: heap_init does NOT abort on mapping failure.  Run with an empty PMM
pool (every one of the 16 frame allocations fails, so not a single heap page
gets mapped and heap_end never advances past heap_start), heap_init still
lays down the 65508-byte free block spanning the whole 64KB arena and
records heap_size = 65536.  This contradicts the spec requirement that a
MappingFailed during heap initialization abort the initialization instead
of producing a partially-backed (here: completely unbacked) arena; on the
real hardware the block-header write itself would fault. -/
theorem heap_init_no_abort (s : SysState) (hempty : s.free_page_stack = []) :
    (heap_init s).heap_blocks
        = [{ magic := HEAP_MAGIC_FREE, size := 16 * PAGE_SIZE - HEADER_SIZE,
             is_free := true, file := 0, line := 0 }]
      ∧ (heap_init s).mem_stats.heap_size = 16 * PAGE_SIZE
      ∧ (heap_init s).heap_end = HEAP_VIRTUAL_START
      ∧ (heap_init s).heap_start = HEAP_VIRTUAL_START := by
  have hfold := heap_init_fold_empty (List.range 16)
    { s with heap_start := HEAP_VIRTUAL_START, heap_end := HEAP_VIRTUAL_START } hempty
  refine ⟨rfl, rfl, ?_, ?_⟩
  · simp only [heap_init]
    rw [hfold]
  · simp only [heap_init]
    rw [hfold]

/-- Witness for C9: heap_init over sys0 (empty PMM pool). -/
theorem heap_init_no_abort_witness :
    (heap_init sys0).heap_blocks
        = [{ magic := HEAP_MAGIC_FREE, size := 16 * PAGE_SIZE - HEADER_SIZE,
             is_free := true, file := 0, line := 0 }]
      ∧ (heap_init sys0).mem_stats.heap_size = 16 * PAGE_SIZE
      ∧ (heap_init sys0).heap_end = HEAP_VIRTUAL_START
      ∧ (heap_init sys0).heap_start = HEAP_VIRTUAL_START :=
  heap_init_no_abort sys0 rfl

/- ------------------------------------------------------------------ -/
/- Claim C1                                                            -/
/- ------------------------------------------------------------------ -/

theorem kmalloc_heap_size (s : SysState) (n : Nat) :
    ((kmalloc s n).2).mem_stats.heap_size = s.mem_stats.heap_size := by
  by_cases hn : n = 0
  · subst hn
    rw [kmalloc_zero]
  · cases hf : find_free_block s.heap_blocks (align8 n) with
    | none => rw [kmalloc_of_none s n hn hf]
    | some i => rw [kmalloc_of_some s n i hn hf]

theorem kfree_heap_size (s : SysState) (p : Nat) :
    ((kfree s p).1).mem_stats.heap_size = s.mem_stats.heap_size := by
  by_cases hp : p = 0
  · simp [kfree, hp]
  · simp only [kfree, if_neg hp]
    cases hfi : findBlockIdx (p - HEADER_SIZE) s.heap_start s.heap_blocks with
    | none => rfl
    | some i =>
        by_cases hm : (s.heap_blocks.getD i blk0).magic ≠ HEAP_MAGIC_ALLOC
        · rw [List.getD_eq_getElem?_getD] at hm
          simp [hm]
        · rw [List.getD_eq_getElem?_getD] at hm
          simp at hm
          simp [hm]

/-- C1: the heap arena-sum invariant.  heap_init lays down a single free
block whose header plus payload cover the whole 16-page arena, with the
matching heap_size statistic; split_block and merge_free_blocks preserve
the sum of (header + size) over the block list (under the no-overflow
bounds that hold in every reachable state, where the sum is the 64KB arena
size); and kmalloc and kfree (which invoke them) preserve both the sum and
the heap_size statistic whenever the sum equals the 64KB arena size that
heap_init establishes. -/
theorem heap_arena_sum_invariant :
    (∀ s : SysState,
        arenaSum (heap_init s).heap_blocks = 16 * PAGE_SIZE
        ∧ (heap_init s).mem_stats.heap_size = 16 * PAGE_SIZE)
    ∧ (∀ (bs : List HeapBlock) (i a : Nat), arenaSum bs < U32 →
        a + HEADER_SIZE + 32 < U32 →
        arenaSum (split_block bs i a) = arenaSum bs)
    ∧ (∀ (bs : List HeapBlock) (i : Nat), arenaSum bs < U32 →
        arenaSum (merge_free_blocks bs i) = arenaSum bs)
    ∧ (∀ (s : SysState) (n : Nat), arenaSum s.heap_blocks = 16 * PAGE_SIZE →
        arenaSum ((kmalloc s n).2.heap_blocks) = 16 * PAGE_SIZE
        ∧ ((kmalloc s n).2).mem_stats.heap_size = s.mem_stats.heap_size)
    ∧ (∀ (s : SysState) (p : Nat), arenaSum s.heap_blocks = 16 * PAGE_SIZE →
        arenaSum ((kfree s p).1.heap_blocks) = 16 * PAGE_SIZE
        ∧ ((kfree s p).1).mem_stats.heap_size = s.mem_stats.heap_size) := by
  have he : 16 * PAGE_SIZE = 65536 := by norm_num [PAGE_SIZE]
  refine ⟨?_, split_block_arenaSum, merge_free_blocks_arenaSum, ?_, ?_⟩
  · intro s
    constructor
    · rw [(heap_init_blocks s).1]
      simp [arenaSum, HEADER_SIZE, PAGE_SIZE]
    · rfl
  · intro s n hA
    rw [he] at hA ⊢
    exact ⟨kmalloc_arena s n hA, kmalloc_heap_size s n⟩
  · intro s p hA
    rw [he] at hA ⊢
    exact ⟨kfree_arena s p hA, kfree_heap_size s p⟩

/-- Witness for C1: the invariant facts instantiated on the concrete 64KB
one-block heap heap64k (an allocation of 100 bytes, a kfree call, a split
at the head block, a merge at the head block) and on heap_init run from
sys0. -/
theorem heap_arena_sum_invariant_witness :
    arenaSum ((kmalloc heap64k 100).2.heap_blocks) = 16 * PAGE_SIZE
    ∧ arenaSum ((kfree heap64k 500).1.heap_blocks) = 16 * PAGE_SIZE
    ∧ arenaSum (split_block heap64k.heap_blocks 0 8) = arenaSum heap64k.heap_blocks
    ∧ arenaSum (merge_free_blocks heap64k.heap_blocks 0) = arenaSum heap64k.heap_blocks
    ∧ arenaSum (heap_init sys0).heap_blocks = 16 * PAGE_SIZE :=
  ⟨(heap_arena_sum_invariant.2.2.2.1 heap64k 100 (by decide)).1,
   (heap_arena_sum_invariant.2.2.2.2 heap64k 500 (by decide)).1,
   heap_arena_sum_invariant.2.1 heap64k.heap_blocks 0 8 (by decide) (by decide),
   heap_arena_sum_invariant.2.2.1 heap64k.heap_blocks 0 (by decide),
   (heap_arena_sum_invariant.1 sys0).1⟩

/- ------------------------------------------------------------------ -/
/- Claim C6                                                            -/
/- ------------------------------------------------------------------ -/

theorem pmm_init_8mb_stack (s : SysState) :
    (pmm_init s 8388608).free_page_stack
      = (4194304 + 1023 * PAGE_SIZE)
        :: ((List.range 1023).map (fun k => 4194304 + k * PAGE_SIZE)).reverse := by
  have hs : (pmm_init s 8388608).free_page_stack
      = ((List.range 1024).map (fun k => 4194304 + k * PAGE_SIZE)).reverse ++ [] := by
    have hmaxp : sub32 8388608 4194304 / PAGE_SIZE = 1024 := by
      norm_num [sub32, U32, PAGE_SIZE]
    have hiter : (if (8388608 : Nat) ≤ 4194304 then 0
        else (8388608 - 4194304 + 4095) / PAGE_SIZE) = 1024 := by
      norm_num [PAGE_SIZE]
    simp only [pmm_init, hmaxp, hiter]
    exact foldl_push_all 1024 _ [] (by simp)
  rw [hs, List.append_nil,
    show (1024 : Nat) = 1023 + 1 from by norm_num,
    List.range_succ, List.map_append, List.reverse_append]
  simp

/-- C6: after pmm_init with 8MB of total memory the free-frame count is
(8MB - 4MB) / 4096 = 1024; the next pmm_alloc_page returns the frame
0x7FF000 (which lies in the interval from 4MB up to but excluding 8MB) and
leaves the count at 1023; and on an empty pool pmm_alloc_page returns the
failure sentinel 0. -/
theorem pmm_init_8mb_scenario (s s0 : SysState) (hempty : s0.free_page_stack = []) :
    pmm_get_free_pages (pmm_init s 8388608) = 1024
    ∧ 4194304 ≤ (pmm_alloc_page (pmm_init s 8388608)).1
    ∧ (pmm_alloc_page (pmm_init s 8388608)).1 < 8388608
    ∧ pmm_get_free_pages (pmm_alloc_page (pmm_init s 8388608)).2 = 1023
    ∧ (pmm_alloc_page s0).1 = 0 := by
  have hstack := pmm_init_8mb_stack s
  refine ⟨?_, ?_, ?_, ?_, ?_⟩
  · simp [pmm_get_free_pages, hstack]
  · simp [pmm_alloc_page, hstack, PAGE_SIZE]
  · simp [pmm_alloc_page, hstack, PAGE_SIZE]
  · simp [pmm_alloc_page, hstack, pmm_get_free_pages]
  · simp [pmm_alloc_page, hempty]

/-- Witness for C6: the scenario run from sys0 (which also has the empty
pool for the exhaustion conjunct). -/
theorem pmm_init_8mb_scenario_witness :
    pmm_get_free_pages (pmm_init sys0 8388608) = 1024
    ∧ 4194304 ≤ (pmm_alloc_page (pmm_init sys0 8388608)).1
    ∧ (pmm_alloc_page (pmm_init sys0 8388608)).1 < 8388608
    ∧ pmm_get_free_pages (pmm_alloc_page (pmm_init sys0 8388608)).2 = 1023
    ∧ (pmm_alloc_page sys0).1 = 0 :=
  pmm_init_8mb_scenario sys0 sys0 rfl

/- ------------------------------------------------------------------ -/
/- Claim C2 (corrected)                                                -/
/- ------------------------------------------------------------------ -/

/-- C2 counterexample: the round-trip claim is false as stated.  In the
state heap40 (one free 40-byte block, heap_free = 40) the call kmalloc 16
succeeds, but the chosen block is NOT split (40 is below the rounded size
plus header plus 32), so the whole 40-byte block is handed out while only
the 16 rounded bytes are charged; kfree on the returned pointer then adds
back the full block size 40, leaving heap_free = 64 instead of the
original 40. -/
theorem kfree_heap_free_counterexample :
    ((kmalloc heap40 16).1).isSome = true
    ∧ heap40.mem_stats.heap_free = 40
    ∧ ((kfree (kmalloc heap40 16).2 ((kmalloc heap40 16).1.getD 0)).1).mem_stats.heap_free
        = 64 := by
  decide

/-- C2 (amended): for every size n for which kmalloc n succeeds on block i,
if the chosen block is actually split by split_block (its size exceeds the
rounded size + header + 32) or the block size equals the rounded size, then
kfree on the returned pointer restores mem_stats.heap_free to its value
before the kmalloc (given the heap_free counter is a 32-bit value, as it is
in the C).  Without that condition the code overshoots by (block size -
rounded size), as the counterexample shows. -/
theorem kmalloc_kfree_restores_heap_free
    (s : SysState) (n i : Nat)
    (hn : ¬ n = 0)
    (hfind : find_free_block s.heap_blocks (align8 n) = some i)
    (hhf : s.mem_stats.heap_free < U32)
    (hcase : add32 (add32 (align8 n) HEADER_SIZE) 32 < (s.heap_blocks.getD i blk0).size
           ∨ (s.heap_blocks.getD i blk0).size = align8 n) :
    ((kfree (kmalloc s n).2 ((kmalloc s n).1.getD 0)).1).mem_stats.heap_free
      = s.mem_stats.heap_free :=
  kmalloc_kfree_heap_free_core s n i hn hfind hhf hcase

/-- Witness for C2: allocating 100 bytes from the 64KB one-block heap does
split the block, and the kmalloc-kfree round trip restores heap_free. -/
theorem kmalloc_kfree_restores_heap_free_witness :
    ((kfree (kmalloc heap64k 100).2 ((kmalloc heap64k 100).1.getD 0)).1).mem_stats.heap_free
      = heap64k.mem_stats.heap_free :=
  kmalloc_kfree_restores_heap_free heap64k 100 0 (by decide) (by decide) (by decide)
    (Or.inl (by decide))

/- ------------------------------------------------------------------ -/
/- Claim C5 (corrected)                                                -/
/- ------------------------------------------------------------------ -/

theorem align8_spec (n : Nat) (h7 : n + 7 < U32) :
    align8 n % 8 = 0 ∧ n ≤ align8 n ∧ align8 n < n + 8 := by
  simp only [align8, U32] at *
  omega

/-- C5 counterexample: the claim that every positive request is rounded up
to the next multiple of 8 fails at the top of the size_t range.  In heap8
(one valid free block of 8 bytes) the call kmalloc 4294967295 succeeds:
the rounding (size + 7) & ~7 is computed in 32-bit arithmetic and wraps to
0, so the 8-byte block satisfies the scan, even though no multiple of 8
that is at least 4294967295 could fit in it. -/
theorem kmalloc_rounding_counterexample :
    align8 4294967295 = 0
    ∧ ((kmalloc heap8 4294967295).1).isSome = true
    ∧ (heap8.heap_blocks.map (fun b => b.size)) = [8]
    ∧ (8 : Nat) < 4294967295 := by
  decide

/-- C5 (amended): the kmalloc contract.  A zero-size request returns NULL
with no state change.  For positive sizes with size + 7 below 2^32 the
rounded size is the least multiple of 8 that is at least the request (for
larger sizes the 32-bit computation wraps, see the counterexample).  When
the scan finds block i for the rounded size, the allocation succeeds, the
returned pointer is the address immediately after the header of block i,
and block i is the first block in head-to-tail order that is free with
size at least the rounded size (first-fit); when the scan fails, kmalloc
returns NULL with no state change. -/
theorem kmalloc_contract :
    (∀ s : SysState, kmalloc s 0 = (none, s))
    ∧ (∀ n : Nat, n + 7 < U32 →
        align8 n % 8 = 0 ∧ n ≤ align8 n ∧ align8 n < n + 8)
    ∧ (∀ (s : SysState) (n i : Nat), ¬ n = 0 →
        find_free_block s.heap_blocks (align8 n) = some i →
        (kmalloc s n).1 = some (blockAddr s.heap_start s.heap_blocks i + HEADER_SIZE)
        ∧ i < s.heap_blocks.length
        ∧ (s.heap_blocks.getD i blk0).is_free = true
        ∧ align8 n ≤ (s.heap_blocks.getD i blk0).size
        ∧ ∀ j, j < i → ¬((s.heap_blocks.getD j blk0).is_free = true
            ∧ align8 n ≤ (s.heap_blocks.getD j blk0).size))
    ∧ (∀ (s : SysState) (n : Nat), ¬ n = 0 →
        find_free_block s.heap_blocks (align8 n) = none →
        kmalloc s n = (none, s)) := by
  refine ⟨kmalloc_zero, align8_spec, ?_, kmalloc_of_none⟩
  intro s n i hn hf
  obtain ⟨h1, h2, h3, h4⟩ := find_free_block_spec _ _ _ hf
  refine ⟨?_, h1, h2, h3, h4⟩
  rw [kmalloc_of_some s n i hn hf]

/-- Witness for C5: allocating 100 bytes from the 64KB one-block heap picks
block 0 first-fit and returns the address just past its header; rounding of
100 gives 104. -/
theorem kmalloc_contract_witness :
    kmalloc heap64k 0 = (none, heap64k)
    ∧ (align8 100 % 8 = 0 ∧ 100 ≤ align8 100 ∧ align8 100 < 100 + 8)
    ∧ (kmalloc heap64k 100).1
        = some (blockAddr heap64k.heap_start heap64k.heap_blocks 0 + HEADER_SIZE) :=
  ⟨kmalloc_contract.1 heap64k,
   kmalloc_contract.2.1 100 (by decide),
   (kmalloc_contract.2.2.1 heap64k 100 0 (by decide) (by decide)).1⟩

/- ------------------------------------------------------------------ -/
/- Claim C10 (corrected)                                               -/
/- ------------------------------------------------------------------ -/

/-- C10 counterexample: the claim that a successful kcalloc returns a
pointer to count * size zero-filled bytes fails when the product overflows
size_t.  With count = 2^31 + 1 and size = 2 the 32-bit product wraps to 2,
so on heap40 (memory pre-filled with the byte 1) kcalloc succeeds and
zero-fills only 2 bytes: the third byte of the region, which lies well
inside the claimed count * size range, still holds 1. -/
theorem kcalloc_overflow_counterexample :
    (kcalloc heap40 2147483649 2).1 = some 3489660956
    ∧ ((kcalloc heap40 2147483649 2).2).mem 3489660958 = 1
    ∧ 3489660956 ≤ 3489660958
    ∧ 3489660958 < 3489660956 + 2147483649 * 2 := by
  decide

/-- C10 (amended): kcalloc computes the byte count as the 32-bit product
count * size mod 2^32 (so a product at or above 2^32 wraps, see the
counterexample); the allocation outcome is exactly that of kmalloc on this
wrapped total - failure propagates - and on success every byte of the
wrapped-total-sized region is zero-filled. -/
theorem kcalloc_contract (s : SysState) (count size : Nat) :
    (kcalloc s count size).1 = (kmalloc s (mul32 count size)).1
    ∧ ∀ p : Nat, (kcalloc s count size).1 = some p →
        ∀ a : Nat, p ≤ a → a < p + mul32 count size →
          ((kcalloc s count size).2).mem a = 0 := by
  simp only [kcalloc]
  cases hr : (kmalloc s (mul32 count size)).1 with
  | none =>
      constructor
      · show (kmalloc s (mul32 count size)).1 = none
        exact hr
      · intro p hp
        have : (kmalloc s (mul32 count size)).1 = some p := hp
        rw [hr] at this
        exact absurd this (by simp)
  | some q =>
      refine ⟨rfl, ?_⟩
      intro p hp a ha1 ha2
      have hpq : p = q := by
        simpa using hp.symm
      subst hpq
      show memsetBytes ((kmalloc s (mul32 count size)).2).mem p 0 (mul32 count size) a = 0
      rw [memsetBytes_at]
      rw [if_pos ⟨ha1, ha2⟩]

/-- Witness for C10: kcalloc 2 3 on heap40 allocates 6 bytes (rounded to 8
internally) and zero-fills them; the byte at offset 5 of the returned
region is 0. -/
theorem kcalloc_contract_witness :
    (kcalloc heap40 2 3).1 = (kmalloc heap40 (mul32 2 3)).1
    ∧ ((kcalloc heap40 2 3).2).mem 3489660961 = 0 :=
  ⟨(kcalloc_contract heap40 2 3).1,
   (kcalloc_contract heap40 2 3).2 3489660956 (by decide) 3489660961 (by decide) (by decide)⟩

/- ------------------------------------------------------------------ -/
/- Claim C8                                                            -/
/- ------------------------------------------------------------------ -/

/-- C8: mapping an already-mapped virtual address (directory entry present,
and the page-table entry present too) performs no implicit unmap: the PMM
is not touched at all (free stack, used pages and statistics unchanged, so
the free count is unchanged and the previously mapped frame is not
returned), the page directory is unchanged, and the page-table entry is
simply overwritten with phys | flags. -/
theorem vmm_map_overwrite_no_free (s : SysState) (virt phys flags : Nat)
    (hpres : (s.page_directory.getD (virt / 4194304) 0) % 2 = 1)
    (ht : (getTable s.tables
        (frameBase (s.page_directory.getD (virt / 4194304) 0))).length = 1024)
    (hmapped : ((getTable s.tables
        (frameBase (s.page_directory.getD (virt / 4194304) 0))).getD
          (virt / 4096 % 1024) 0) % 2 = 1) :
    (vmm_map_page s virt phys flags).free_page_stack = s.free_page_stack
    ∧ (vmm_map_page s virt phys flags).page_directory = s.page_directory
    ∧ (vmm_map_page s virt phys flags).used_pages = s.used_pages
    ∧ (vmm_map_page s virt phys flags).mem_stats = s.mem_stats
    ∧ getTable (vmm_map_page s virt phys flags).tables
        (frameBase (s.page_directory.getD (virt / 4194304) 0))
      = (getTable s.tables
          (frameBase (s.page_directory.getD (virt / 4194304) 0))).set
          (virt / 4096 % 1024) (phys ||| flags)
    ∧ (getTable (vmm_map_page s virt phys flags).tables
        (frameBase (s.page_directory.getD (virt / 4194304) 0))).getD
          (virt / 4096 % 1024) 0
      = phys ||| flags := by
  have hne : ¬ ((s.page_directory.getD (virt / 4194304) 0) % 2 = 0) := by omega
  have hmap : vmm_map_page s virt phys flags
      = { s with
          tables := setTable s.tables
              (frameBase (s.page_directory.getD (virt / 4194304) 0))
              ((getTable s.tables
                  (frameBase (s.page_directory.getD (virt / 4194304) 0))).set
                (virt / 4096 % 1024) (phys ||| flags)) } := by
    rw [List.getD_eq_getElem?_getD] at hne
    simp [vmm_map_page, vmm_ensure_table, hne, List.getD_eq_getElem?_getD]
  rw [hmap]
  refine ⟨rfl, rfl, rfl, rfl, ?_, ?_⟩
  · exact getTable_setTable_self _ _ _
  · rw [getTable_setTable_self]
    refine getD_set_self _ _ _ _ ?_
    rw [ht]
    exact Nat.mod_lt _ (by norm_num)

/-- State with virtual address 0 already mapped: directory entry 0 is
4097 = frame 4096 | present, and the table at frame 4096 holds 1024 odd
(present) entries. -/
def vmm1 : SysState :=
  { sys0 with page_directory := [4097], tables := [(4096, List.replicate 1024 5)] }

/-- Witness for C8: virtual address 0 is mapped (directory entry 4097 with
a full table of odd entries at frame 4096); remapping it to 8192 | 3 leaves
the PMM stack untouched. -/
theorem vmm_map_overwrite_no_free_witness :
    (vmm_map_page vmm1 0 8192 3).free_page_stack = vmm1.free_page_stack
    ∧ (getTable (vmm_map_page vmm1 0 8192 3).tables
        (frameBase (vmm1.page_directory.getD (0 / 4194304) 0))).getD (0 / 4096 % 1024) 0
      = 8192 ||| 3 := by
  have ht : (getTable vmm1.tables
      (frameBase (vmm1.page_directory.getD (0 / 4194304) 0))).length = 1024 := by
    show (List.replicate 1024 (5 : Nat)).length = 1024
    rw [List.length_replicate]
  have hmapped : ((getTable vmm1.tables
      (frameBase (vmm1.page_directory.getD (0 / 4194304) 0))).getD
        (0 / 4096 % 1024) 0) % 2 = 1 := by
    show ((List.replicate 1024 (5 : Nat)).getD 0 0) % 2 = 1
    decide
  exact ⟨(vmm_map_overwrite_no_free vmm1 0 8192 3 (by decide) ht hmapped).1,
    (vmm_map_overwrite_no_free vmm1 0 8192 3 (by decide) ht hmapped).2.2.2.2.2⟩

/- ------------------------------------------------------------------ -/
/- Evaluation lemmas for the VMM functions                             -/
/- ------------------------------------------------------------------ -/

theorem vmm_map_page_present (s : SysState) (virt phys flags : Nat)
    (hpres : ¬ (s.page_directory.getD (virt / 4194304) 0) % 2 = 0) :
    vmm_map_page s virt phys flags
      = { s with
          tables := setTable s.tables
              (frameBase (s.page_directory.getD (virt / 4194304) 0))
              ((getTable s.tables
                  (frameBase (s.page_directory.getD (virt / 4194304) 0))).set
                (virt / 4096 % 1024) (phys ||| flags)) } := by
  rw [List.getD_eq_getElem?_getD] at hpres
  simp [vmm_map_page, vmm_ensure_table, hpres, List.getD_eq_getElem?_getD]

set_option maxRecDepth 8000 in
theorem vmm_map_page_absent (s : SysState) (virt phys flags p : Nat) (rest : List Nat)
    (habs : (s.page_directory.getD (virt / 4194304) 0) % 2 = 0)
    (hstack : s.free_page_stack = p :: rest)
    (hp0 : ¬ p = 0) :
    vmm_map_page s virt phys flags
      = (let D := p ||| PAGE_PRESENT ||| PAGE_WRITABLE ||| (flags / 4 % 2 * 4)
         let sA : SysState :=
           { s with
             page_directory := s.page_directory.set (virt / 4194304) D,
             free_page_stack := rest,
             used_pages := add32 s.used_pages 1,
             mem_stats := { s.mem_stats with
               used_physical := add32 s.mem_stats.used_physical PAGE_SIZE,
               free_physical := sub32 s.mem_stats.free_physical PAGE_SIZE },
             tables := setTable s.tables p (List.replicate 1024 0) }
         { sA with
           tables := setTable sA.tables
               (frameBase (sA.page_directory.getD (virt / 4194304) 0))
               ((getTable sA.tables
                   (frameBase (sA.page_directory.getD (virt / 4194304) 0))).set
                 (virt / 4096 % 1024) (phys ||| flags)) }) := by
  rw [List.getD_eq_getElem?_getD] at habs
  simp [vmm_map_page, vmm_ensure_table, habs, pmm_alloc_page, hstack, hp0,
    List.getD_eq_getElem?_getD]

theorem vmm_get_physical_present (s : SysState) (virt e : Nat)
    (hpres : ¬ (s.page_directory.getD (virt / 4194304) 0) % 2 = 0)
    (he : (getTable s.tables
        (frameBase (s.page_directory.getD (virt / 4194304) 0))).getD
        (virt / 4096 % 1024) 0 = e)
    (hep : ¬ e % 2 = 0) :
    vmm_get_physical s virt = frameBase e + virt % 4096 := by
  simp only [vmm_get_physical, if_neg hpres, he, if_neg hep]

theorem vmm_get_physical_entry_zero (s : SysState) (virt : Nat)
    (hz : ((getTable s.tables
        (frameBase (s.page_directory.getD (virt / 4194304) 0))).getD
        (virt / 4096 % 1024) 0) % 2 = 0) :
    vmm_get_physical s virt = 0 := by
  simp only [vmm_get_physical]
  by_cases hp : (s.page_directory.getD (virt / 4194304) 0) % 2 = 0
  · rw [if_pos hp]
  · rw [if_neg hp, if_pos hz]

theorem vmm_unmap_page_present (s : SysState) (virt e : Nat)
    (hpres : ¬ (s.page_directory.getD (virt / 4194304) 0) % 2 = 0)
    (he : (getTable s.tables
        (frameBase (s.page_directory.getD (virt / 4194304) 0))).getD
        (virt / 4096 % 1024) 0 = e)
    (hep : ¬ e % 2 = 0)
    (hroom : ¬ (s.max_free_pages ≤ s.free_page_stack.length)) :
    vmm_unmap_page s virt
      = { s with
          free_page_stack := frameBase e :: s.free_page_stack,
          used_pages := sub32 s.used_pages 1,
          mem_stats := { s.mem_stats with
            used_physical := sub32 s.mem_stats.used_physical PAGE_SIZE,
            free_physical := add32 s.mem_stats.free_physical PAGE_SIZE },
          tables := setTable s.tables
              (frameBase (s.page_directory.getD (virt / 4194304) 0))
              ((getTable s.tables
                  (frameBase (s.page_directory.getD (virt / 4194304) 0))).set
                (virt / 4096 % 1024) 0) } := by
  simp only [vmm_unmap_page, if_neg hpres, he, if_neg hep, pmm_free_page, if_neg hroom]


theorem roundtrip_afterMap (R : SysState) (virt phys flags base : Nat) (t : List Nat)
    (hpde : ¬ (R.page_directory.getD (virt / 4194304) 0) % 2 = 0)
    (hbase : frameBase (R.page_directory.getD (virt / 4194304) 0) = base)
    (htab : getTable R.tables base = t.set (virt / 4096 % 1024) (phys + flags))
    (htl : t.length = 1024)
    (hpa : phys % 4096 = 0) (hfl : flags < 4096) (hfp : flags % 2 = 1)
    (hroom : ¬ (R.max_free_pages ≤ R.free_page_stack.length)) :
    vmm_get_physical R virt = phys + virt % 4096
    ∧ vmm_get_physical (vmm_unmap_page R virt) virt = 0
    ∧ (vmm_unmap_page R virt).free_page_stack = phys :: R.free_page_stack := by
  have hpti : virt / 4096 % 1024 < 1024 := Nat.mod_lt _ (by norm_num)
  have hEp : ¬ ((phys + flags) % 2 = 0) := by omega
  have hEb : frameBase (phys + flags) = phys := frameBase_add phys flags hpa hfl
  have hentry : (getTable R.tables
      (frameBase (R.page_directory.getD (virt / 4194304) 0))).getD
        (virt / 4096 % 1024) 0 = phys + flags := by
    rw [hbase, htab]
    exact getD_set_self _ _ _ _ (by rw [htl]; exact hpti)
  have hun := vmm_unmap_page_present R virt (phys + flags) hpde hentry hEp hroom
  refine ⟨?_, ?_, ?_⟩
  · rw [vmm_get_physical_present R virt (phys + flags) hpde hentry hEp, hEb]
  · rw [hun]
    apply vmm_get_physical_entry_zero
    dsimp only
    rw [hbase, getTable_setTable_self, htab,
      getD_set_self _ _ _ _ (by rw [List.length_set, htl]; exact hpti)]
  · rw [hun, hEb]

theorem roundtrip_present (s : SysState) (virt phys flags : Nat)
    (hpa : phys % 4096 = 0)
    (hfl : flags < 4096) (hfp : flags % 2 = 1)
    (hroom : s.free_page_stack.length < s.max_free_pages)
    (hpres : (s.page_directory.getD (virt / 4194304) 0) % 2 = 1)
    (htlen : (getTable s.tables
        (frameBase (s.page_directory.getD (virt / 4194304) 0))).length = 1024) :
    vmm_get_physical (vmm_map_page s virt phys flags) virt = phys + virt % 4096
    ∧ vmm_get_physical (vmm_unmap_page (vmm_map_page s virt phys flags) virt) virt = 0
    ∧ (vmm_unmap_page (vmm_map_page s virt phys flags) virt).free_page_stack
        = phys :: (vmm_map_page s virt phys flags).free_page_stack := by
  have hpres' : ¬ (s.page_directory.getD (virt / 4194304) 0) % 2 = 0 := by omega
  have hmap := vmm_map_page_present s virt phys flags hpres'
  have hE : phys ||| flags = phys + flags := lor_aligned_add phys flags hpa hfl
  have h1 : ¬ ((vmm_map_page s virt phys flags).page_directory.getD
      (virt / 4194304) 0) % 2 = 0 := by
    rw [hmap]
    exact hpres'
  have h2 : frameBase ((vmm_map_page s virt phys flags).page_directory.getD
      (virt / 4194304) 0) = frameBase (s.page_directory.getD (virt / 4194304) 0) := by
    rw [hmap]
  have h3 : getTable (vmm_map_page s virt phys flags).tables
      (frameBase (s.page_directory.getD (virt / 4194304) 0))
      = (getTable s.tables (frameBase (s.page_directory.getD (virt / 4194304) 0))).set
        (virt / 4096 % 1024) (phys + flags) := by
    rw [hmap]
    show getTable (setTable s.tables (frameBase (s.page_directory.getD (virt / 4194304) 0))
      ((getTable s.tables (frameBase (s.page_directory.getD (virt / 4194304) 0))).set
        (virt / 4096 % 1024) (phys ||| flags)))
      (frameBase (s.page_directory.getD (virt / 4194304) 0)) = _
    rw [getTable_setTable_self, hE]
  have h4 : ¬ ((vmm_map_page s virt phys flags).max_free_pages
      ≤ (vmm_map_page s virt phys flags).free_page_stack.length) := by
    rw [hmap]
    show ¬ (s.max_free_pages ≤ s.free_page_stack.length)
    omega
  have hres := roundtrip_afterMap (vmm_map_page s virt phys flags) virt phys flags
    (frameBase (s.page_directory.getD (virt / 4194304) 0))
    (getTable s.tables (frameBase (s.page_directory.getD (virt / 4194304) 0)))
    h1 h2 h3 htlen hpa hfl hfp h4
  have hstk : (vmm_map_page s virt phys flags).free_page_stack = s.free_page_stack := by
    rw [hmap]
  exact ⟨hres.1, hres.2.1, by rw [hres.2.2]⟩

theorem roundtrip_absent (s : SysState) (virt phys flags p : Nat) (rest : List Nat)
    (hv : virt < U32)
    (hpd : s.page_directory.length = 1024)
    (hpa : phys % 4096 = 0)
    (hfl : flags < 4096) (hfp : flags % 2 = 1)
    (habs : (s.page_directory.getD (virt / 4194304) 0) % 2 = 0)
    (hstack : s.free_page_stack = p :: rest)
    (hroom : s.free_page_stack.length < s.max_free_pages)
    (hp0 : ¬ p = 0) (hpal : p % 4096 = 0) :
    vmm_get_physical (vmm_map_page s virt phys flags) virt = phys + virt % 4096
    ∧ vmm_get_physical (vmm_unmap_page (vmm_map_page s virt phys flags) virt) virt = 0
    ∧ (vmm_unmap_page (vmm_map_page s virt phys flags) virt).free_page_stack
        = phys :: (vmm_map_page s virt phys flags).free_page_stack := by
  have hmap := vmm_map_page_absent s virt phys flags p rest habs hstack hp0
  have hv32 : virt < 4294967296 := hv
  have hpdi : virt / 4194304 < 1024 := by omega
  have hpdl : virt / 4194304 < s.page_directory.length := by
    rw [hpd]
    exact hpdi
  have hE : phys ||| flags = phys + flags := lor_aligned_add phys flags hpa hfl
  have hDval : p ||| PAGE_PRESENT ||| PAGE_WRITABLE ||| (flags / 4 % 2 * 4)
      = p + (3 + flags / 4 % 2 * 4) := dir_entry_build p flags hpal
  have hd4 : 3 + flags / 4 % 2 * 4 < 4096 := by omega
  have hDb : frameBase (p + (3 + flags / 4 % 2 * 4)) = p :=
    frameBase_add p _ hpal hd4
  have h1 : ¬ ((vmm_map_page s virt phys flags).page_directory.getD
      (virt / 4194304) 0) % 2 = 0 := by
    rw [hmap]
    show ¬ ((s.page_directory.set (virt / 4194304)
      (p ||| PAGE_PRESENT ||| PAGE_WRITABLE ||| (flags / 4 % 2 * 4))).getD
        (virt / 4194304) 0) % 2 = 0
    rw [getD_set_self _ _ _ _ hpdl, hDval]
    omega
  have h2 : frameBase ((vmm_map_page s virt phys flags).page_directory.getD
      (virt / 4194304) 0) = p := by
    rw [hmap]
    show frameBase ((s.page_directory.set (virt / 4194304)
      (p ||| PAGE_PRESENT ||| PAGE_WRITABLE ||| (flags / 4 % 2 * 4))).getD
        (virt / 4194304) 0) = p
    rw [getD_set_self _ _ _ _ hpdl, hDval]
    exact hDb
  have h3 : getTable (vmm_map_page s virt phys flags).tables p
      = (List.replicate 1024 0).set (virt / 4096 % 1024) (phys + flags) := by
    rw [hmap]
    show getTable (setTable (setTable s.tables p (List.replicate 1024 0))
        (frameBase ((s.page_directory.set (virt / 4194304)
          (p ||| PAGE_PRESENT ||| PAGE_WRITABLE ||| (flags / 4 % 2 * 4))).getD
            (virt / 4194304) 0))
        ((getTable (setTable s.tables p (List.replicate 1024 0))
            (frameBase ((s.page_directory.set (virt / 4194304)
              (p ||| PAGE_PRESENT ||| PAGE_WRITABLE ||| (flags / 4 % 2 * 4))).getD
                (virt / 4194304) 0))).set
          (virt / 4096 % 1024) (phys ||| flags))) p
      = (List.replicate 1024 0).set (virt / 4096 % 1024) (phys + flags)
    rw [getD_set_self _ _ _ _ hpdl, hDval, hDb]
    simp only [getTable_setTable_self]
    rw [hE]
  have h4 : ¬ ((vmm_map_page s virt phys flags).max_free_pages
      ≤ (vmm_map_page s virt phys flags).free_page_stack.length) := by
    rw [hmap]
    show ¬ (s.max_free_pages ≤ rest.length)
    have hlen := congrArg List.length hstack
    simp only [List.length_cons] at hlen
    omega
  have hres := roundtrip_afterMap (vmm_map_page s virt phys flags) virt phys flags
    p (List.replicate 1024 0) h1 h2 h3 (by rw [List.length_replicate]) hpa hfl hfp h4
  exact ⟨hres.1, hres.2.1, hres.2.2⟩

/- ------------------------------------------------------------------ -/
/- Claim C4                                                            -/
/- ------------------------------------------------------------------ -/

/-- C4: translation round trip.  For a virtual address mapped via
vmm_map_page to a page-aligned physical address (with a present flag and
well-formed inputs: a 1024-entry directory, and either the covering page
table already present with its 1024 entries, or a directory hole together
with a nonzero page-aligned frame on top of the PMM stack to build the new
table from; the free stack must have room so that the freed frame can be
taken back), vmm_get_physical returns exactly that physical address plus
the page offset of the virtual address; after vmm_unmap_page on it,
vmm_get_physical reports unmapped (0) and the physical frame is back in
the PMM free pool with the free count one above its post-map value. -/
theorem vmm_map_translate_roundtrip (s : SysState) (virt phys flags : Nat)
    (hv : virt < U32)
    (hpd : s.page_directory.length = 1024)
    (hpa : phys % 4096 = 0)
    (hfl : flags < 4096) (hfp : flags % 2 = 1)
    (hroom : s.free_page_stack.length < s.max_free_pages)
    (hcase :
      ((s.page_directory.getD (virt / 4194304) 0) % 2 = 1
        ∧ (getTable s.tables
            (frameBase (s.page_directory.getD (virt / 4194304) 0))).length = 1024)
      ∨ ((s.page_directory.getD (virt / 4194304) 0) % 2 = 0
        ∧ ∃ p rest, s.free_page_stack = p :: rest ∧ ¬ p = 0 ∧ p % 4096 = 0)) :
    vmm_get_physical (vmm_map_page s virt phys flags) virt = phys + virt % 4096
    ∧ vmm_get_physical (vmm_unmap_page (vmm_map_page s virt phys flags) virt) virt = 0
    ∧ pmm_get_free_pages (vmm_unmap_page (vmm_map_page s virt phys flags) virt)
        = pmm_get_free_pages (vmm_map_page s virt phys flags) + 1
    ∧ phys ∈ (vmm_unmap_page (vmm_map_page s virt phys flags) virt).free_page_stack := by
  have hres :
      vmm_get_physical (vmm_map_page s virt phys flags) virt = phys + virt % 4096
      ∧ vmm_get_physical (vmm_unmap_page (vmm_map_page s virt phys flags) virt) virt = 0
      ∧ (vmm_unmap_page (vmm_map_page s virt phys flags) virt).free_page_stack
          = phys :: (vmm_map_page s virt phys flags).free_page_stack := by
    rcases hcase with ⟨hpres, htlen⟩ | ⟨habs, p, rest, hstack, hp0, hpal⟩
    · exact roundtrip_present s virt phys flags hpa hfl hfp hroom hpres htlen
    · exact roundtrip_absent s virt phys flags p rest hv hpd hpa hfl hfp habs hstack
        hroom hp0 hpal
  refine ⟨hres.1, hres.2.1, ?_, ?_⟩
  · show (vmm_unmap_page (vmm_map_page s virt phys flags) virt).free_page_stack.length
      = (vmm_map_page s virt phys flags).free_page_stack.length + 1
    rw [hres.2.2, List.length_cons]
  · rw [hres.2.2]
    exact List.mem_cons_self _ _

/-- State for the C4 witness: a zeroed 1024-entry page directory and one
free frame 0x1000 in the PMM pool. -/
def vmmW : SysState :=
  { sys0 with
    page_directory := List.replicate 1024 0,
    free_page_stack := [4096],
    max_free_pages := 4 }

/-- Witness for C4: mapping virtual 4097-page (pdi 0, pti 1) to physical
4MB in vmmW, translating, unmapping, and checking the free count. -/
theorem vmm_map_translate_roundtrip_witness :
    vmm_get_physical (vmm_map_page vmmW 4097 4194304 3) 4097 = 4194304 + 4097 % 4096
    ∧ pmm_get_free_pages (vmm_unmap_page (vmm_map_page vmmW 4097 4194304 3) 4097)
        = pmm_get_free_pages (vmm_map_page vmmW 4097 4194304 3) + 1 := by
  have hpd : vmmW.page_directory.length = 1024 := by
    show (List.replicate 1024 (0 : Nat)).length = 1024
    rw [List.length_replicate]
  have habs : (vmmW.page_directory.getD (4097 / 4194304) 0) % 2 = 0 := by
    show ((List.replicate 1024 (0 : Nat)).getD 0 0) % 2 = 0
    decide
  have h := vmm_map_translate_roundtrip vmmW 4097 4194304 3 (by decide) hpd (by decide)
    (by decide) (by decide) (by decide)
    (Or.inr ⟨habs, 4096, [], rfl, by decide, by decide⟩)
  exact ⟨h.1, h.2.2.1⟩
